import Mathlib

/-!
Verification of the column type-inference engine of the export-converter
repository (`app/streamlit_app.py`, function `infer_and_cast`).

The engine is shallowly embedded: a table is an ordered association list of
named columns; a column is a pandas-like series — a dtype together with an
ordered list of possibly-missing scalar cells.  The pandas coercion
primitives used by the source (`Series.dropna`, `pd.to_numeric(errors="coerce")`,
`pd.to_datetime(errors="coerce", infer_datetime_format=True)`, `Series.astype(str)`,
`Series.replace`, `Series.where/isin`, `Series.str.strip`,
`pd.api.types.is_integer_dtype`, `Series.astype("Int64")`) are modelled as
total Lean functions below, following the pandas-1.x behaviour the source
relies on (the `infer_datetime_format` keyword exists only there).

Parse ratios are exact rationals; a ratio `count / n` is written
`mkRat count n`, which is definitionally the rational number `count / n`
(`Rat.mkRat_eq_div`) while remaining kernel-computable.

The permissive format-inferring datetime parser of pandas is modelled by a
concrete bounded parser (ISO dates `YYYY-MM-DD` and bare four-digit years);
the numeric parser accepts optional sign, decimal digits and an optional
fractional part.  The exact format coverage of the host parsers is an
implementation detail of the host environment; the properties proved below
are insensitive to the particular bounded choice.
-/

set_option autoImplicit false

namespace ExportConv

/-- A scalar cell value: a raw string, an integer, a float (modelled as an
exact rational, adequate for the decimal literals the engine handles), or a
datetime (modelled as an integer timestamp code, as pandas stores
`datetime64` values as integers). -/
inductive Value where
  | vStr (s : String)
  | vInt (n : Int)
  | vFloat (q : ℚ)
  | vDt (t : Int)
deriving DecidableEq

/-- A cell is either missing (`none`, pandas `NaN`/`NaT`/`NA`) or a value. -/
abbrev Cell := Option Value

/-- The pandas dtype of a stored column.  `int64` stands for the nullable
`Int64` extension dtype the source casts integer columns to. -/
inductive DType where
  | object
  | float64
  | int64
  | datetime64
deriving DecidableEq

/-- A column: its stored dtype and its ordered cells. -/
structure Column where
  dtype : DType
  cells : List Cell
deriving DecidableEq

/-- The inferred type tag recorded per column by `infer_and_cast`. -/
inductive Tag where
  | empty
  | datetime
  | integer
  | float
  | string
deriving DecidableEq

/-- Whitespace recognised by `str.strip` (the forms relevant here). -/
def isWS (c : Char) : Bool :=
  c = ' ' || c = '\t' || c = '\n' || c = '\r'

/-- Strip leading and trailing whitespace from a character list. -/
def trimChars (cs : List Char) : List Char :=
  ((cs.dropWhile isWS).reverse.dropWhile isWS).reverse

/-- `str.strip` / the whitespace tolerance of the pandas scalar parsers. -/
def stripStr (s : String) : String :=
  ⟨trimChars s.data⟩

/-- Numeric value of a list of decimal digits. -/
def digitsVal (cs : List Char) : Nat :=
  cs.foldl (fun acc c => 10 * acc + (c.toNat - '0'.toNat)) 0

/-- `pd.to_numeric` on a string scalar: optional sign, then decimal digits
with an optional fractional part.  Returns `(isInt, value)` where `isInt`
records whether the literal is an integer literal (pandas parses `"2"` to an
`int64` but `"2.0"` to a `float64`).  Failures (and the literal `"nan"`,
which pandas parses to `NaN`, i.e. to a missing result) are `none`.
A literal `ip.fp` denotes the rational `(ip * 10^k + fp) / 10^k`, written
with `mkRat` so that it is kernel-computable. -/
def parseNumStr (s : String) : Option (Bool × ℚ) :=
  let cs := trimChars s.data
  let sg : Int := match cs with
    | '-' :: _ => -1
    | _ => 1
  let cs2 : List Char := match cs with
    | '-' :: r => r
    | '+' :: r => r
    | r => r
  let ip := cs2.takeWhile Char.isDigit
  let rest := cs2.dropWhile Char.isDigit
  match rest with
  | [] =>
      if ip.isEmpty then none
      else some (true, ((sg * (digitsVal ip : Int) : Int) : ℚ))
  | '.' :: fp =>
      if fp.all Char.isDigit && !(ip.isEmpty && fp.isEmpty) then
        some (false,
          mkRat (sg * ((digitsVal ip * 10 ^ fp.length + digitsVal fp : Nat) : Int))
            (10 ^ fp.length))
      else none
  | _ => none

/-- `pd.to_numeric(errors="coerce")` on one scalar, following pandas 1.x:
strings are parsed as decimal literals; integers and floats pass through;
`datetime64` values convert to their integer timestamp representation. -/
def parseNum (v : Value) : Option (Bool × ℚ) :=
  match v with
  | Value.vStr s => parseNumStr s
  | Value.vInt n => some (true, (n : ℚ))
  | Value.vFloat q => some (false, q)
  | Value.vDt t => some (true, (t : ℚ))

/-- Timestamp code of a calendar date (an injective encoding; the engine
never does arithmetic on timestamps, only equality and re-parsing). -/
def dtCode (y m d : Nat) : Int :=
  (y * 10000 + m * 100 + d : Nat)

/-- The bounded model of the format-inferring string datetime parser:
ISO dates `YYYY-MM-DD` (months 1–12, days 1–31) and bare four-digit years
within the `datetime64[ns]` range.  Everything else fails. -/
def parseDTStr (s : String) : Option Int :=
  match trimChars s.data with
  | [y1, y2, y3, y4] =>
      if [y1, y2, y3, y4].all Char.isDigit then
        let y := digitsVal [y1, y2, y3, y4]
        if 1678 ≤ y && y ≤ 2261 then some (dtCode y 1 1) else none
      else none
  | [y1, y2, y3, y4, '-', m1, m2, '-', d1, d2] =>
      if [y1, y2, y3, y4, m1, m2, d1, d2].all Char.isDigit then
        let y := digitsVal [y1, y2, y3, y4]
        let m := digitsVal [m1, m2]
        let d := digitsVal [d1, d2]
        if 1678 ≤ y && y ≤ 2261 && 1 ≤ m && m ≤ 12 && 1 ≤ d && d ≤ 31 then
          some (dtCode y m d)
        else none
      else none
  | _ => none

/-- `pd.to_datetime(errors="coerce", infer_datetime_format=True)` on one
scalar: strings go through the format-inferring parser; integers and floats
are taken as epoch offsets; datetimes pass through. -/
def parseDT (v : Value) : Option Int :=
  match v with
  | Value.vStr s => parseDTStr s
  | Value.vInt n => some n
  | Value.vFloat q => some q.floor
  | Value.vDt t => some t

/-- Python `str()` of a scalar, as applied by `Series.astype(str)`.
Floats render with a decimal part (`str(2.0) = "2.0"`); the rendering of
non-decimal rationals and of timestamps is a fixed injective stand-in, which
is adequate because no proved property inspects those strings. -/
def strOfValue (v : Value) : String :=
  match v with
  | Value.vStr s => s
  | Value.vInt n => toString n
  | Value.vFloat q => if q.den = 1 then toString q.num ++ ".0" else toString q
  | Value.vDt t => "dt:" ++ toString t

/-- `Series.dropna`: the non-missing values of a cell list, in order. -/
def nonNull (cs : List Cell) : List Value :=
  cs.filterMap id

/-- Fraction of a value list that parses numerically
(`coerced_num.notna().sum() / n` in the source). -/
def numOk (vs : List Value) : ℚ :=
  mkRat (vs.countP (fun v => (parseNum v).isSome)) vs.length

/-- Fraction of a value list that parses as a datetime
(`coerced_dt.notna().sum() / n` in the source). -/
def dtOk (vs : List Value) : ℚ :=
  mkRat (vs.countP (fun v => (parseDT v).isSome)) vs.length

/-- `pd.api.types.is_integer_dtype(pd.Series(coerced_num.dropna()).dtype)`:
`pd.to_numeric` on the non-null values yields an integer dtype exactly when
the series is non-empty and every value parsed as an integer literal (any
coercion failure introduces `NaN` and forces `float64`, and `dropna` does not
restore an integer dtype afterwards). -/
def intDtypeAfterCoerce (vs : List Value) : Bool :=
  !vs.isEmpty && vs.all (fun v =>
    match parseNum v with
    | some p => p.1
    | none => false)

/-- Full-column `pd.to_datetime(errors="coerce")`: missing stays missing,
parse failures become missing. -/
def castDT (cs : List Cell) : List Cell :=
  cs.map (fun c => c.bind (fun v => (parseDT v).map Value.vDt))

/-- Full-column `pd.to_numeric(errors="coerce")` followed by
`astype("Int64")` (taken in the integer branch, where every non-null value
parses as an integer literal): missing and failures become missing, parsed
values are stored as integers. -/
def castNumInt (cs : List Cell) : List Cell :=
  cs.map (fun c => c.bind (fun v => (parseNum v).map (fun p => Value.vInt p.2.num)))

/-- Full-column `pd.to_numeric(errors="coerce")` in the float branch:
missing and failures become missing, parsed values are stored as floats
(pandas widens every entry of a `float64` result to float). -/
def castNumFloat (cs : List Cell) : List Cell :=
  cs.map (fun c => c.bind (fun v => (parseNum v).map (fun p => Value.vFloat p.2)))

/-- `series.astype(str)`: every cell becomes its string form; missing cells
stringify to the literal `"nan"` (pandas renders `NaN` so). -/
def astypeStr (cs : List Cell) : List String :=
  cs.map (fun c =>
    match c with
    | none => "nan"
    | some v => strOfValue v)

/-- `.replace({"nan": pd.NA})`. -/
def replaceNan (ss : List String) : List (Option String) :=
  ss.map (fun s => if s = "nan" then none else some s)

/-- `.where(~isin(["nan", "None"]), other=pd.NA)`: missing entries stay
missing, entries equal to the literals become missing. -/
def whereNotNanNone (os : List (Option String)) : List (Option String) :=
  os.map (fun o => o.bind (fun s => if s = "nan" || s = "None" then none else some s))

/-- `.str.strip()`: strip whitespace of non-missing entries. -/
def stripAll (os : List (Option String)) : List (Option String) :=
  os.map (fun o => o.map stripStr)

/-- The object-dtype string fallback of the source, lines 70–73:
`astype(str)`, `replace`, `where/isin`, `str.strip`, in that order. -/
def stringBranch (cs : List Cell) : List Cell :=
  (stripAll (whereNotNanNone (replaceNan (astypeStr cs)))).map (Option.map Value.vStr)

/-- The per-column body of `infer_and_cast` (source lines 41–74): compute
the two parse ratios over the non-null values and decide
datetime / numeric (integer or float) / string, with an early `empty` exit
for all-missing columns. -/
def inferColumn (a b : ℚ) (col : Column) : Column × Tag :=
  if (nonNull col.cells).isEmpty then (col, Tag.empty)
  else if dtOk (nonNull col.cells) ≥ a ∧ dtOk (nonNull col.cells) > numOk (nonNull col.cells) then
    (⟨DType.datetime64, castDT col.cells⟩, Tag.datetime)
  else if numOk (nonNull col.cells) ≥ b then
    if intDtypeAfterCoerce (nonNull col.cells) then
      (⟨DType.int64, castNumInt col.cells⟩, Tag.integer)
    else
      (⟨DType.float64, castNumFloat col.cells⟩, Tag.float)
  else
    if col.dtype = DType.object then
      (⟨DType.object, stringBranch col.cells⟩, Tag.string)
    else
      (col, Tag.string)

/-- `infer_and_cast(df, datetime_threshold, numeric_threshold)`: a table is
an ordered association list of named columns; the result is the cast table
and the tags mapping, both in column order. -/
def infer_and_cast (df : List (String × Column)) (a b : ℚ) :
    List (String × Column) × List (String × Tag) :=
  (df.map (fun p => (p.1, (inferColumn a b p.2).1)),
   df.map (fun p => (p.1, (inferColumn a b p.2).2)))

/-- The spec's well-formedness frame on a column: the stored non-missing
values conform to the stored dtype (`object` columns may hold any scalar). -/
def conforms (d : DType) (v : Value) : Bool :=
  match d, v with
  | DType.object, _ => true
  | DType.float64, Value.vFloat _ => true
  | DType.int64, Value.vInt _ => true
  | DType.datetime64, Value.vDt _ => true
  | _, _ => false

/-- A well-formed column. -/
abbrev WFColumn (col : Column) : Prop :=
  ∀ v ∈ nonNull col.cells, conforms col.dtype v = true

/-! ### Helper lemmas -/

theorem nonNull_eq_nil {cs : List Cell} : nonNull cs = [] ↔ ∀ c ∈ cs, c = none := by
  simp [nonNull, List.filterMap_eq_nil_iff]

theorem stringBranch_length (cs : List Cell) : (stringBranch cs).length = cs.length := by
  simp [stringBranch, stripAll, whereNotNanNone, replaceNan, astypeStr]

theorem inferColumn_cells_length (a b : ℚ) (col : Column) :
    (inferColumn a b col).1.cells.length = col.cells.length := by
  unfold inferColumn
  split_ifs <;>
    simp [castDT, castNumInt, castNumFloat, stringBranch, stripAll, whereNotNanNone,
      replaceNan, astypeStr]

theorem stringBranch_eq_map (cs : List Cell) :
    stringBranch cs = cs.map (fun c =>
      match c with
      | none => none
      | some v =>
          if strOfValue v = "nan" ∨ strOfValue v = "None" then none
          else some (Value.vStr (stripStr (strOfValue v)))) := by
  unfold stringBranch stripAll whereNotNanNone replaceNan astypeStr
  simp only [List.map_map]
  refine List.map_congr_left (fun c _ => ?_)
  cases c with
  | none => simp [Function.comp]
  | some v =>
      by_cases h1 : strOfValue v = "nan" <;> by_cases h2 : strOfValue v = "None" <;>
        simp [Function.comp, h1, h2]

theorem conforms_parseNum {d : DType} {v : Value} (hd : d ≠ DType.object)
    (h : conforms d v = true) : (parseNum v).isSome := by
  cases d <;> cases v <;> simp_all [conforms, parseNum]

theorem mkRat_countP_eq_one {α : Type} (p : α → Bool) (l : List α) (h : l ≠ [])
    (hall : ∀ x ∈ l, p x) : mkRat (l.countP p) l.length = 1 := by
  rw [List.countP_eq_length.mpr hall, Rat.mkRat_eq_div]
  have hl : (l.length : ℚ) ≠ 0 := by
    exact_mod_cast (List.length_pos.mpr h).ne'
  push_cast
  exact div_self hl

theorem numOk_eq_one {vs : List Value} (h : vs ≠ [])
    (hall : ∀ v ∈ vs, (parseNum v).isSome) : numOk vs = 1 :=
  mkRat_countP_eq_one _ vs h hall

theorem dtOk_eq_one {vs : List Value} (h : vs ≠ [])
    (hall : ∀ v ∈ vs, (parseDT v).isSome) : dtOk vs = 1 :=
  mkRat_countP_eq_one _ vs h hall

theorem intDtypeAfterCoerce_iff {vs : List Value} (h : vs ≠ []) :
    intDtypeAfterCoerce vs = true ↔
      ∀ v ∈ vs, ∃ q : ℚ, parseNum v = some (true, q) := by
  unfold intDtypeAfterCoerce
  rw [Bool.and_eq_true, List.all_eq_true]
  simp only [Bool.not_eq_true', List.isEmpty_eq_false_iff_exists_mem]
  constructor
  · rintro ⟨-, hall⟩ v hv
    have := hall v hv
    revert this
    cases hn : parseNum v with
    | none => intro hfalse; exact absurd hfalse (by simp)
    | some p =>
        intro hp
        have hp1 : p.1 = true := by simpa using hp
        exact ⟨p.2, by rw [← hp1, Prod.mk.eta]⟩
  · intro hall
    refine ⟨?_, fun v hv => ?_⟩
    · obtain ⟨v, hv⟩ := List.exists_mem_of_ne_nil vs h
      exact ⟨v, hv⟩
    · obtain ⟨q, hq⟩ := hall v hv
      rw [hq]

/-! ### Claim theorems -/

/-- C9: a column whose cells are all missing is tagged `empty` and returned
unchanged (all cells still missing). -/
theorem c9_empty_column (a b : ℚ) (col : Column)
    (h : ∀ c ∈ col.cells, c = none) :
    inferColumn a b col = (col, Tag.empty) := by
  unfold inferColumn
  rw [if_pos (List.isEmpty_iff.mpr (nonNull_eq_nil.mpr h))]

/-- Witness for C9 at a concrete all-missing column. -/
theorem c9_empty_column_witness :
    inferColumn (Rat.mk' 3 5) (Rat.mk' 4 5) ⟨DType.object, [none, none]⟩ =
      (⟨DType.object, [none, none]⟩, Tag.empty) :=
  c9_empty_column (Rat.mk' 3 5) (Rat.mk' 4 5) ⟨DType.object, [none, none]⟩ (by decide)

/-- C10: a column that falls through to the `string` tag but whose stored
dtype is not `object` is returned completely unchanged — no text conversion,
no trimming, no `"nan"`/`"None"` normalization. -/
theorem c10_non_object_string_passthrough (a b : ℚ) (col : Column)
    (hd : col.dtype ≠ DType.object)
    (ht : (inferColumn a b col).2 = Tag.string) :
    (inferColumn a b col).1 = col := by
  unfold inferColumn at ht ⊢
  split_ifs at ht ⊢ with h1 h2 h3 h4
  rfl

/-- Witness for C10: a `datetime64`-dtype column that fails both thresholds
keeps its cells bit-for-bit. -/
theorem c10_non_object_string_passthrough_witness :
    (inferColumn 2 2 ⟨DType.datetime64, [some (Value.vDt 5), none]⟩).1 =
      ⟨DType.datetime64, [some (Value.vDt 5), none]⟩ :=
  c10_non_object_string_passthrough 2 2 ⟨DType.datetime64, [some (Value.vDt 5), none]⟩
    (by decide) (by decide)

/-- C6: the output table has exactly the input's column names and order,
each output column has the input column's row count, and the tags mapping
covers every column in order. -/
theorem c6_shape_preservation (df : List (String × Column)) (a b : ℚ) :
    ((infer_and_cast df a b).1).map Prod.fst = df.map Prod.fst ∧
    List.Forall₂ (fun p q => p.1 = q.1 ∧ q.2.cells.length = p.2.cells.length)
      df (infer_and_cast df a b).1 ∧
    ((infer_and_cast df a b).2).map Prod.fst = df.map Prod.fst := by
  refine ⟨?_, ?_, ?_⟩
  · simp [infer_and_cast, List.map_map, Function.comp]
  · induction df with
    | nil => exact List.Forall₂.nil
    | cons p l ih =>
        exact List.Forall₂.cons ⟨rfl, inferColumn_cells_length a b p.2⟩ ih
  · simp [infer_and_cast, List.map_map, Function.comp]

/-- C1: for a column with at least one non-missing value, the tag is
`datetime` iff `dt_ok ≥ datetime_threshold` and `dt_ok` strictly exceeds
`num_ok`; on an exact tie that clears the numeric threshold the column is
classified numeric (`integer` or `float`), not `datetime`. -/
theorem c1_datetime_decision (a b : ℚ) (col : Column)
    (h : nonNull col.cells ≠ []) :
    ((inferColumn a b col).2 = Tag.datetime ↔
      (a ≤ dtOk (nonNull col.cells) ∧
        numOk (nonNull col.cells) < dtOk (nonNull col.cells))) ∧
    (dtOk (nonNull col.cells) = numOk (nonNull col.cells) →
      b ≤ numOk (nonNull col.cells) →
      (inferColumn a b col).2 = Tag.integer ∨ (inferColumn a b col).2 = Tag.float) := by
  unfold inferColumn
  rw [if_neg (by simpa [List.isEmpty_iff] using h)]
  split_ifs with h1 h2 h3
  · refine ⟨by simpa using h1, fun he _ => absurd h1.2 (by rw [he]; exact lt_irrefl _)⟩
  · exact ⟨by simpa using h1, fun _ _ => Or.inl rfl⟩
  · exact ⟨by simpa using h1, fun _ _ => Or.inr rfl⟩
  · refine ⟨by simpa using h1, fun _ hb => absurd hb h2⟩
  · refine ⟨by simpa using h1, fun _ hb => absurd hb h2⟩

/-- Witness for C1 at a concrete mostly-dates column (3 of 4 parse as
dates, none as numbers). -/
theorem c1_datetime_decision_witness :
    ((inferColumn (Rat.mk' 3 5) (Rat.mk' 4 5) ⟨DType.object, [some (Value.vStr "2021-01-01"),
        some (Value.vStr "2021-02-15"), some (Value.vStr "bad"),
        some (Value.vStr "2021-03-10")]⟩).2 = Tag.datetime ↔
      (Rat.mk' 3 5 ≤ dtOk (nonNull [some (Value.vStr "2021-01-01"),
          some (Value.vStr "2021-02-15"), some (Value.vStr "bad"),
          some (Value.vStr "2021-03-10")]) ∧
        numOk (nonNull [some (Value.vStr "2021-01-01"),
          some (Value.vStr "2021-02-15"), some (Value.vStr "bad"),
          some (Value.vStr "2021-03-10")]) <
        dtOk (nonNull [some (Value.vStr "2021-01-01"),
          some (Value.vStr "2021-02-15"), some (Value.vStr "bad"),
          some (Value.vStr "2021-03-10")]))) ∧
    (dtOk (nonNull [some (Value.vStr "2021-01-01"), some (Value.vStr "2021-02-15"),
        some (Value.vStr "bad"), some (Value.vStr "2021-03-10")]) =
      numOk (nonNull [some (Value.vStr "2021-01-01"), some (Value.vStr "2021-02-15"),
        some (Value.vStr "bad"), some (Value.vStr "2021-03-10")]) →
      Rat.mk' 4 5 ≤ numOk (nonNull [some (Value.vStr "2021-01-01"),
        some (Value.vStr "2021-02-15"), some (Value.vStr "bad"),
        some (Value.vStr "2021-03-10")]) →
      (inferColumn (Rat.mk' 3 5) (Rat.mk' 4 5) ⟨DType.object, [some (Value.vStr "2021-01-01"),
        some (Value.vStr "2021-02-15"), some (Value.vStr "bad"),
        some (Value.vStr "2021-03-10")]⟩).2 = Tag.integer ∨
      (inferColumn (Rat.mk' 3 5) (Rat.mk' 4 5) ⟨DType.object, [some (Value.vStr "2021-01-01"),
        some (Value.vStr "2021-02-15"), some (Value.vStr "bad"),
        some (Value.vStr "2021-03-10")]⟩).2 = Tag.float) :=
  c1_datetime_decision (Rat.mk' 3 5) (Rat.mk' 4 5)
    ⟨DType.object, [some (Value.vStr "2021-01-01"), some (Value.vStr "2021-02-15"),
      some (Value.vStr "bad"), some (Value.vStr "2021-03-10")]⟩ (by decide)

/-- C5: the numeric threshold is inclusive — when the datetime branch is not
taken, a column whose numeric ratio equals `numeric_threshold` exactly is
classified numeric, and one whose ratio is below it is not (tag `string`). -/
theorem c5_numeric_threshold_inclusive (a b : ℚ) (col : Column)
    (h : nonNull col.cells ≠ [])
    (hdt : ¬(a ≤ dtOk (nonNull col.cells) ∧
      numOk (nonNull col.cells) < dtOk (nonNull col.cells))) :
    (numOk (nonNull col.cells) = b →
      (inferColumn a b col).2 = Tag.integer ∨ (inferColumn a b col).2 = Tag.float) ∧
    (numOk (nonNull col.cells) < b → (inferColumn a b col).2 = Tag.string) := by
  unfold inferColumn
  rw [if_neg (by simpa [List.isEmpty_iff] using h)]
  split_ifs with h1 h2 h3
  · exact absurd h1 hdt
  · exact ⟨fun _ => Or.inl rfl, fun hlt => absurd h2 (not_le.mpr hlt)⟩
  · exact ⟨fun _ => Or.inr rfl, fun hlt => absurd h2 (not_le.mpr hlt)⟩
  · exact ⟨fun he => absurd (le_of_eq he.symm) h2, fun _ => rfl⟩
  · exact ⟨fun he => absurd (le_of_eq he.symm) h2, fun _ => rfl⟩

/-- Witness for C5 at a concrete column whose numeric ratio is exactly
`4/5`, matching the threshold. -/
theorem c5_numeric_threshold_inclusive_witness :
    (numOk (nonNull [some (Value.vStr "1"), some (Value.vStr "2"),
        some (Value.vStr "3"), some (Value.vStr "4"), some (Value.vStr "x")]) = Rat.mk' 4 5 →
      (inferColumn (Rat.mk' 3 5) (Rat.mk' 4 5) ⟨DType.object, [some (Value.vStr "1"),
        some (Value.vStr "2"), some (Value.vStr "3"), some (Value.vStr "4"),
        some (Value.vStr "x")]⟩).2 = Tag.integer ∨
      (inferColumn (Rat.mk' 3 5) (Rat.mk' 4 5) ⟨DType.object, [some (Value.vStr "1"),
        some (Value.vStr "2"), some (Value.vStr "3"), some (Value.vStr "4"),
        some (Value.vStr "x")]⟩).2 = Tag.float) ∧
    (numOk (nonNull [some (Value.vStr "1"), some (Value.vStr "2"),
        some (Value.vStr "3"), some (Value.vStr "4"), some (Value.vStr "x")]) < Rat.mk' 4 5 →
      (inferColumn (Rat.mk' 3 5) (Rat.mk' 4 5) ⟨DType.object, [some (Value.vStr "1"),
        some (Value.vStr "2"), some (Value.vStr "3"), some (Value.vStr "4"),
        some (Value.vStr "x")]⟩).2 = Tag.string) :=
  c5_numeric_threshold_inclusive (Rat.mk' 3 5) (Rat.mk' 4 5)
    ⟨DType.object, [some (Value.vStr "1"), some (Value.vStr "2"), some (Value.vStr "3"),
      some (Value.vStr "4"), some (Value.vStr "x")]⟩ (by decide) (by decide)

/-- C4: on a well-formed column that falls through to the `string` tag
(with a numeric threshold at most 1), every cell is transformed as follows:
a missing cell stays missing; a non-missing value whose stringification is
the literal `"nan"` or `"None"` becomes missing; every other non-missing
value becomes its text form with surrounding whitespace trimmed.  In
particular no other non-missing cell becomes missing. -/
theorem c4_string_fallback_conversion (a b : ℚ) (col : Column)
    (hb1 : b ≤ 1) (hwf : WFColumn col)
    (ht : (inferColumn a b col).2 = Tag.string) :
    (inferColumn a b col).1.cells = col.cells.map (fun c =>
      match c with
      | none => none
      | some v =>
          if strOfValue v = "nan" ∨ strOfValue v = "None" then none
          else some (Value.vStr (stripStr (strOfValue v)))) := by
  unfold inferColumn at ht ⊢
  split_ifs at ht ⊢ with h1 h2 h3 h4 h5
  · exact stringBranch_eq_map col.cells
  · exfalso
    have hne : nonNull col.cells ≠ [] := by simpa [List.isEmpty_iff] using h1
    have hone : numOk (nonNull col.cells) = 1 :=
      numOk_eq_one hne (fun v hv => conforms_parseNum h5 (hwf v hv))
    exact h3 (by rw [hone]; exact hb1)

/-- Witness for C4 at a concrete object column with a blank-padded value, a
missing cell, a literal `"nan"` and a value that trims to `"nan"`. -/
theorem c4_string_fallback_conversion_witness :
    (inferColumn (Rat.mk' 3 5) (Rat.mk' 4 5) ⟨DType.object, [some (Value.vStr " a "),
        none, some (Value.vStr "nan"), some (Value.vStr " nan ")]⟩).1.cells =
      [some (Value.vStr " a "), none, some (Value.vStr "nan"),
        some (Value.vStr " nan ")].map (fun c =>
        match c with
        | none => none
        | some v =>
            if strOfValue v = "nan" ∨ strOfValue v = "None" then none
            else some (Value.vStr (stripStr (strOfValue v)))) :=
  c4_string_fallback_conversion (Rat.mk' 3 5) (Rat.mk' 4 5)
    ⟨DType.object, [some (Value.vStr " a "), none, some (Value.vStr "nan"),
      some (Value.vStr " nan ")]⟩ (by decide) (by decide) (by decide)

/-- C8: `infer_and_cast`'s per-column decision is total — it always returns
a full column of the input's length — and a non-missing value that fails to
parse under the chosen type (datetime, or numeric for integer/float) becomes
missing in the output rather than raising. -/
theorem c8_totality_and_coercion (a b : ℚ) (col : Column) :
    (inferColumn a b col).1.cells.length = col.cells.length ∧
    ∀ i : Nat, ∀ v : Value, col.cells[i]? = some (some v) →
      (((inferColumn a b col).2 = Tag.datetime → parseDT v = none →
          (inferColumn a b col).1.cells[i]? = some none) ∧
       (((inferColumn a b col).2 = Tag.integer ∨ (inferColumn a b col).2 = Tag.float) →
          parseNum v = none → (inferColumn a b col).1.cells[i]? = some none)) := by
  refine ⟨inferColumn_cells_length a b col, ?_⟩
  intro i v hv
  unfold inferColumn
  split_ifs with h1 h2 h3 h4
  · exact ⟨by simp, by simp⟩
  · refine ⟨fun _ hpd => ?_, by simp⟩
    simp [castDT, List.getElem?_map, hv, hpd]
  · refine ⟨by simp, fun _ hpn => ?_⟩
    simp [castNumInt, List.getElem?_map, hv, hpn]
  · refine ⟨by simp, fun _ hpn => ?_⟩
    simp [castNumFloat, List.getElem?_map, hv, hpn]
  · exact ⟨by simp, by simp⟩
  · exact ⟨by simp, by simp⟩

/-- Witness for C8: in the concrete datetime column, the unparseable value
`"bad"` at index 2 is coerced to missing. -/
theorem c8_totality_and_coercion_witness :
    (inferColumn (Rat.mk' 3 5) (Rat.mk' 4 5) ⟨DType.object, [some (Value.vStr "2021-01-01"),
      some (Value.vStr "2021-02-15"), some (Value.vStr "bad"),
      some (Value.vStr "2021-03-10")]⟩).1.cells[2]? = some none :=
  ((c8_totality_and_coercion (Rat.mk' 3 5) (Rat.mk' 4 5)
      ⟨DType.object, [some (Value.vStr "2021-01-01"), some (Value.vStr "2021-02-15"),
        some (Value.vStr "bad"), some (Value.vStr "2021-03-10")]⟩).2 2
    (Value.vStr "bad") (by decide)).1 (by decide) (by decide)

/-- C3 counterexample: in the column `["5", "6.0"]` every successfully
parsed value is integral (denominator 1), yet the code tags the column
`float`, not `integer` — because `pd.to_numeric` yields a float dtype for
the literal `"6.0"` and `is_integer_dtype` is checked on that dtype. -/
theorem c3_counterexample :
    (∀ v ∈ nonNull [some (Value.vStr "5"), some (Value.vStr "6.0")],
      (parseNum v).isSome ∧ ((parseNum v).getD (true, 0)).2.den = 1) ∧
    (inferColumn (Rat.mk' 3 5) (Rat.mk' 4 5)
      ⟨DType.object, [some (Value.vStr "5"), some (Value.vStr "6.0")]⟩).2 ≠ Tag.integer ∧
    (inferColumn (Rat.mk' 3 5) (Rat.mk' 4 5)
      ⟨DType.object, [some (Value.vStr "5"), some (Value.vStr "6.0")]⟩).2 = Tag.float := by
  decide

/-- C3 (amended): in the numeric branch the tag is `integer` iff every
non-missing value parses as an integer literal (so: no parse failures and no
fractional/decimal notation) — then the column is stored as nullable
integers (`Int64`, missing preserved); otherwise the tag is `float`. -/
theorem c3_integer_float_split (a b : ℚ) (col : Column)
    (h : nonNull col.cells ≠ [])
    (hdt : ¬(a ≤ dtOk (nonNull col.cells) ∧
      numOk (nonNull col.cells) < dtOk (nonNull col.cells)))
    (hnum : b ≤ numOk (nonNull col.cells)) :
    ((inferColumn a b col).2 = Tag.integer ↔
      ∀ v ∈ nonNull col.cells, ∃ q : ℚ, parseNum v = some (true, q)) ∧
    ((inferColumn a b col).2 = Tag.integer →
      (inferColumn a b col).1 = ⟨DType.int64, castNumInt col.cells⟩) ∧
    ((inferColumn a b col).2 = Tag.integer ∨ (inferColumn a b col).2 = Tag.float) := by
  unfold inferColumn
  rw [if_neg (by simpa [List.isEmpty_iff] using h), if_neg hdt, if_pos hnum]
  by_cases hint : intDtypeAfterCoerce (nonNull col.cells) = true
  · rw [if_pos hint]
    exact ⟨by simpa using (intDtypeAfterCoerce_iff h).mp hint, fun _ => rfl, Or.inl rfl⟩
  · rw [if_neg hint]
    refine ⟨?_, by simp, Or.inr rfl⟩
    constructor
    · intro hfalse; exact absurd hfalse (by simp)
    · intro hall; exact absurd ((intDtypeAfterCoerce_iff h).mpr hall) hint

/-- Witness for C3 (amended) at the spec's concrete integer scenario
`["10", "20", missing, "40"]`. -/
theorem c3_integer_float_split_witness :
    ((inferColumn (Rat.mk' 3 5) (Rat.mk' 4 5) ⟨DType.object, [some (Value.vStr "10"),
        some (Value.vStr "20"), none, some (Value.vStr "40")]⟩).2 = Tag.integer ↔
      ∀ v ∈ nonNull [some (Value.vStr "10"), some (Value.vStr "20"), none,
        some (Value.vStr "40")], ∃ q : ℚ, parseNum v = some (true, q)) ∧
    ((inferColumn (Rat.mk' 3 5) (Rat.mk' 4 5) ⟨DType.object, [some (Value.vStr "10"),
        some (Value.vStr "20"), none, some (Value.vStr "40")]⟩).2 = Tag.integer →
      (inferColumn (Rat.mk' 3 5) (Rat.mk' 4 5) ⟨DType.object, [some (Value.vStr "10"),
        some (Value.vStr "20"), none, some (Value.vStr "40")]⟩).1 =
        ⟨DType.int64, castNumInt [some (Value.vStr "10"), some (Value.vStr "20"), none,
          some (Value.vStr "40")]⟩) ∧
    ((inferColumn (Rat.mk' 3 5) (Rat.mk' 4 5) ⟨DType.object, [some (Value.vStr "10"),
        some (Value.vStr "20"), none, some (Value.vStr "40")]⟩).2 = Tag.integer ∨
      (inferColumn (Rat.mk' 3 5) (Rat.mk' 4 5) ⟨DType.object, [some (Value.vStr "10"),
        some (Value.vStr "20"), none, some (Value.vStr "40")]⟩).2 = Tag.float) :=
  c3_integer_float_split (Rat.mk' 3 5) (Rat.mk' 4 5)
    ⟨DType.object, [some (Value.vStr "10"), some (Value.vStr "20"), none,
      some (Value.vStr "40")]⟩ (by decide) (by decide) (by decide)

/-- C7 counterexample: with thresholds `3` and `2`, both outside `(0,1]`,
no configuration error is reported — the single column is fully processed
(its value is whitespace-trimmed by the string branch) and tagged. -/
theorem c7_counterexample :
    infer_and_cast [("c", (⟨DType.object, [some (Value.vStr " x ")]⟩ : Column))] 3 2 =
      ([("c", ⟨DType.object, [some (Value.vStr "x")]⟩)], [("c", Tag.string)]) := by
  decide

/-- C7 (amended): `infer_and_cast` performs no threshold validation — even
for thresholds outside `(0,1]` every column is processed by the usual
per-column decision rule and receives a tag. -/
theorem c7_no_threshold_validation (df : List (String × Column)) (a b : ℚ)
    (h : ¬(0 < a ∧ a ≤ 1) ∨ ¬(0 < b ∧ b ≤ 1)) :
    ((infer_and_cast df a b).2).map Prod.fst = df.map Prod.fst ∧
    List.Forall₂ (fun p q => p.1 = q.1 ∧ q.2 = (inferColumn a b p.2).2)
      df (infer_and_cast df a b).2 := by
  refine ⟨by simp [infer_and_cast, List.map_map, Function.comp], ?_⟩
  induction df with
  | nil => exact List.Forall₂.nil
  | cons p l ih => exact List.Forall₂.cons ⟨rfl, rfl⟩ ih

/-- Witness for C7 (amended) at concrete out-of-range thresholds. -/
theorem c7_no_threshold_validation_witness :
    ((infer_and_cast [("c", (⟨DType.object, [some (Value.vStr " x ")]⟩ : Column))] 3 2).2).map
        Prod.fst =
      [("c", (⟨DType.object, [some (Value.vStr " x ")]⟩ : Column))].map Prod.fst ∧
    List.Forall₂ (fun p q => p.1 = q.1 ∧ q.2 = (inferColumn 3 2 p.2).2)
      [("c", (⟨DType.object, [some (Value.vStr " x ")]⟩ : Column))]
      (infer_and_cast [("c", (⟨DType.object, [some (Value.vStr " x ")]⟩ : Column))] 3 2).2 :=
  c7_no_threshold_validation [("c", ⟨DType.object, [some (Value.vStr " x ")]⟩)] 3 2
    (Or.inl (by decide))

/-! ### Idempotence analysis (C2) -/

theorem nonNull_map_bind (f : Value → Option Value) (cs : List Cell) :
    nonNull (cs.map (fun c => c.bind f)) = (nonNull cs).filterMap f := by
  unfold nonNull
  rw [List.filterMap_map, List.filterMap_filterMap]
  rfl

theorem nonNull_castNumInt (cs : List Cell) :
    nonNull (castNumInt cs) =
      (nonNull cs).filterMap (fun v => (parseNum v).map (fun p => Value.vInt p.2.num)) :=
  nonNull_map_bind _ cs

theorem nonNull_castNumFloat (cs : List Cell) :
    nonNull (castNumFloat cs) =
      (nonNull cs).filterMap (fun v => (parseNum v).map (fun p => Value.vFloat p.2)) :=
  nonNull_map_bind _ cs

theorem mem_filterMap_castInt {vs : List Value} {w : Value}
    (hw : w ∈ vs.filterMap (fun v => (parseNum v).map (fun p => Value.vInt p.2.num))) :
    ∃ k : Int, w = Value.vInt k := by
  rw [List.mem_filterMap] at hw
  obtain ⟨v, -, hv⟩ := hw
  cases hp : parseNum v with
  | none => rw [hp] at hv; simp at hv
  | some p =>
      rw [hp] at hv
      simp only [Option.map_some'] at hv
      exact ⟨p.2.num, (Option.some.inj hv).symm⟩

theorem mem_filterMap_castFloat {vs : List Value} {w : Value}
    (hw : w ∈ vs.filterMap (fun v => (parseNum v).map (fun p => Value.vFloat p.2))) :
    ∃ q : ℚ, w = Value.vFloat q := by
  rw [List.mem_filterMap] at hw
  obtain ⟨v, -, hv⟩ := hw
  cases hp : parseNum v with
  | none => rw [hp] at hv; simp at hv
  | some p =>
      rw [hp] at hv
      simp only [Option.map_some'] at hv
      exact ⟨p.2, (Option.some.inj hv).symm⟩

theorem nonNull_castNumInt_ne_nil {cs : List Cell}
    (hex : ∃ v ∈ nonNull cs, (parseNum v).isSome) :
    nonNull (castNumInt cs) ≠ [] := by
  obtain ⟨v, hv, hp⟩ := hex
  obtain ⟨p, hp'⟩ := Option.isSome_iff_exists.mp hp
  rw [nonNull_castNumInt]
  exact List.ne_nil_of_mem (List.mem_filterMap.mpr ⟨v, hv, by rw [hp']; rfl⟩)

theorem nonNull_castNumFloat_ne_nil {cs : List Cell}
    (hex : ∃ v ∈ nonNull cs, (parseNum v).isSome) :
    nonNull (castNumFloat cs) ≠ [] := by
  obtain ⟨v, hv, hp⟩ := hex
  obtain ⟨p, hp'⟩ := Option.isSome_iff_exists.mp hp
  rw [nonNull_castNumFloat]
  exact List.ne_nil_of_mem (List.mem_filterMap.mpr ⟨v, hv, by rw [hp']; rfl⟩)

theorem castNumInt_idem (cs : List Cell) : castNumInt (castNumInt cs) = castNumInt cs := by
  unfold castNumInt
  rw [List.map_map]
  refine List.map_congr_left (fun c _ => ?_)
  cases c with
  | none => rfl
  | some v =>
      cases hp : parseNum v with
      | none => simp [Function.comp, hp]
      | some p =>
          simp only [Function.comp, Option.some_bind, hp, Option.map_some']
          simp [parseNum, Rat.num_intCast]

theorem castNumFloat_idem (cs : List Cell) :
    castNumFloat (castNumFloat cs) = castNumFloat cs := by
  unfold castNumFloat
  rw [List.map_map]
  refine List.map_congr_left (fun c _ => ?_)
  cases c with
  | none => rfl
  | some v =>
      cases hp : parseNum v with
      | none => simp [Function.comp, hp]
      | some p =>
          simp only [Function.comp, Option.some_bind, hp, Option.map_some']
          simp [parseNum]

theorem exists_parseNum_of_le_numOk {vs : List Value} {b : ℚ} (hb0 : 0 < b)
    (h : b ≤ numOk vs) : ∃ v ∈ vs, (parseNum v).isSome := by
  by_contra hno
  push_neg at hno
  have hcount : vs.countP (fun v => (parseNum v).isSome) = 0 :=
    List.countP_eq_zero.mpr (fun v hv => by simp [hno v hv])
  rw [numOk, hcount] at h
  simp only [Nat.cast_zero, Rat.zero_mkRat] at h
  exact absurd h (not_le.mpr hb0)

theorem inferColumn_all_int (a b : ℚ) (col : Column) (hb1 : b ≤ 1)
    (hne : nonNull col.cells ≠ [])
    (hall : ∀ w ∈ nonNull col.cells, ∃ k : Int, w = Value.vInt k) :
    inferColumn a b col = (⟨DType.int64, castNumInt col.cells⟩, Tag.integer) := by
  have hnum : numOk (nonNull col.cells) = 1 :=
    numOk_eq_one hne (fun v hv => by obtain ⟨k, rfl⟩ := hall v hv; rfl)
  have hdt : dtOk (nonNull col.cells) = 1 :=
    dtOk_eq_one hne (fun v hv => by obtain ⟨k, rfl⟩ := hall v hv; rfl)
  unfold inferColumn
  rw [if_neg (by simpa [List.isEmpty_iff] using hne),
    if_neg (by rw [hdt, hnum]; rintro ⟨-, hlt⟩; exact lt_irrefl _ hlt),
    if_pos (by rw [hnum]; exact hb1),
    if_pos ((intDtypeAfterCoerce_iff hne).mpr
      (fun v hv => by obtain ⟨k, rfl⟩ := hall v hv; exact ⟨(k : ℚ), rfl⟩))]

theorem inferColumn_all_float (a b : ℚ) (col : Column) (hb1 : b ≤ 1)
    (hne : nonNull col.cells ≠ [])
    (hall : ∀ w ∈ nonNull col.cells, ∃ q : ℚ, w = Value.vFloat q) :
    inferColumn a b col = (⟨DType.float64, castNumFloat col.cells⟩, Tag.float) := by
  have hnum : numOk (nonNull col.cells) = 1 :=
    numOk_eq_one hne (fun v hv => by obtain ⟨q, rfl⟩ := hall v hv; rfl)
  have hdt : dtOk (nonNull col.cells) = 1 :=
    dtOk_eq_one hne (fun v hv => by obtain ⟨q, rfl⟩ := hall v hv; rfl)
  have hint : ¬(intDtypeAfterCoerce (nonNull col.cells) = true) := by
    intro hA
    obtain ⟨v, hv⟩ := List.exists_mem_of_ne_nil _ hne
    obtain ⟨q, rfl⟩ := hall v hv
    obtain ⟨q', hq'⟩ := (intDtypeAfterCoerce_iff hne).mp hA _ hv
    simp [parseNum] at hq'
  unfold inferColumn
  rw [if_neg (by simpa [List.isEmpty_iff] using hne),
    if_neg (by rw [hdt, hnum]; rintro ⟨-, hlt⟩; exact lt_irrefl _ hlt),
    if_pos (by rw [hnum]; exact hb1),
    if_neg hint]

theorem inferColumn_idem (a b : ℚ) (col : Column) (hb0 : 0 < b) (hb1 : b ≤ 1)
    (hdt : (inferColumn a b col).2 ≠ Tag.datetime)
    (hstr : (inferColumn a b col).2 ≠ Tag.string) :
    inferColumn a b (inferColumn a b col).1 = inferColumn a b col := by
  by_cases h1 : (nonNull col.cells).isEmpty = true
  · have e1 : inferColumn a b col = (col, Tag.empty) := by
      unfold inferColumn; rw [if_pos h1]
    rw [e1]; exact e1
  · by_cases h2 : dtOk (nonNull col.cells) ≥ a ∧
        dtOk (nonNull col.cells) > numOk (nonNull col.cells)
    · refine absurd ?_ hdt
      unfold inferColumn; rw [if_neg h1, if_pos h2]
    · by_cases h3 : numOk (nonNull col.cells) ≥ b
      · have hne : nonNull col.cells ≠ [] := by simpa [List.isEmpty_iff] using h1
        by_cases h4 : intDtypeAfterCoerce (nonNull col.cells) = true
        · have e1 : inferColumn a b col =
              (⟨DType.int64, castNumInt col.cells⟩, Tag.integer) := by
            unfold inferColumn; rw [if_neg h1, if_neg h2, if_pos h3, if_pos h4]
          have hne2 : nonNull (castNumInt col.cells) ≠ [] := by
            obtain ⟨v, hv⟩ := List.exists_mem_of_ne_nil _ hne
            obtain ⟨q, hq⟩ := (intDtypeAfterCoerce_iff hne).mp h4 v hv
            exact nonNull_castNumInt_ne_nil ⟨v, hv, by rw [hq]; rfl⟩
          have hall2 : ∀ w ∈ nonNull (castNumInt col.cells), ∃ k : Int, w = Value.vInt k := by
            intro w hw
            rw [nonNull_castNumInt] at hw
            exact mem_filterMap_castInt hw
          rw [e1]
          calc inferColumn a b (⟨DType.int64, castNumInt col.cells⟩, Tag.integer).1
              = (⟨DType.int64, castNumInt (castNumInt col.cells)⟩, Tag.integer) :=
                inferColumn_all_int a b _ hb1 hne2 hall2
            _ = (⟨DType.int64, castNumInt col.cells⟩, Tag.integer) := by
                rw [castNumInt_idem]
        · have e1 : inferColumn a b col =
              (⟨DType.float64, castNumFloat col.cells⟩, Tag.float) := by
            unfold inferColumn; rw [if_neg h1, if_neg h2, if_pos h3, if_neg h4]
          have hne2 : nonNull (castNumFloat col.cells) ≠ [] :=
            nonNull_castNumFloat_ne_nil (exists_parseNum_of_le_numOk hb0 h3)
          have hall2 : ∀ w ∈ nonNull (castNumFloat col.cells), ∃ q : ℚ, w = Value.vFloat q := by
            intro w hw
            rw [nonNull_castNumFloat] at hw
            exact mem_filterMap_castFloat hw
          rw [e1]
          calc inferColumn a b (⟨DType.float64, castNumFloat col.cells⟩, Tag.float).1
              = (⟨DType.float64, castNumFloat (castNumFloat col.cells)⟩, Tag.float) :=
                inferColumn_all_float a b _ hb1 hne2 hall2
            _ = (⟨DType.float64, castNumFloat col.cells⟩, Tag.float) := by
                rw [castNumFloat_idem]
      · refine absurd ?_ hstr
        unfold inferColumn; rw [if_neg h1, if_neg h2, if_neg h3]
        by_cases h5 : col.dtype = DType.object
        · rw [if_pos h5]
        · rw [if_neg h5]

/-- C2 counterexample: for the one-column table `["1", "nan", "nan"]` with
the default thresholds, the first inference yields a `string` column
(`"nan"` values normalized to missing); re-running inference on that result
changes it again (the remaining `"1"` now clears the numeric threshold and
becomes an integer column), so `infer` is not idempotent. -/
theorem c2_counterexample :
    (infer_and_cast
        (infer_and_cast [("c", (⟨DType.object, [some (Value.vStr "1"),
          some (Value.vStr "nan"), some (Value.vStr "nan")]⟩ : Column))]
          (Rat.mk' 3 5) (Rat.mk' 4 5)).1
        (Rat.mk' 3 5) (Rat.mk' 4 5)).1 ≠
      (infer_and_cast [("c", (⟨DType.object, [some (Value.vStr "1"),
        some (Value.vStr "nan"), some (Value.vStr "nan")]⟩ : Column))]
        (Rat.mk' 3 5) (Rat.mk' 4 5)).1 := by
  decide

/-- C2 (amended): re-inference is a fixed point on every column whose first
inference does not produce a `datetime` or `string` tag — with thresholds in
`(0,1]`, tables all of whose columns are tagged `empty`, `integer` or
`float` re-infer to exactly the same table and tags.  (`datetime` columns
re-parse as numeric on the second pass, and the `string` branch's
`"nan"`/`"None"` normalization can change the parse ratios.) -/
theorem c2_idempotent_without_datetime_string (df : List (String × Column)) (a b : ℚ)
    (hb0 : 0 < b) (hb1 : b ≤ 1)
    (htags : ∀ p ∈ (infer_and_cast df a b).2, p.2 ≠ Tag.datetime ∧ p.2 ≠ Tag.string) :
    infer_and_cast (infer_and_cast df a b).1 a b = infer_and_cast df a b := by
  have hcol : ∀ p ∈ df, inferColumn a b (inferColumn a b p.2).1 = inferColumn a b p.2 := by
    intro p hp
    have hmem : (p.1, (inferColumn a b p.2).2) ∈ (infer_and_cast df a b).2 :=
      List.mem_map_of_mem (fun q => (q.1, (inferColumn a b q.2).2)) hp
    obtain ⟨hd, hs⟩ := htags _ hmem
    exact inferColumn_idem a b p.2 hb0 hb1 hd hs
  unfold infer_and_cast
  refine congrArg₂ Prod.mk ?_ ?_ <;>
    rw [List.map_map] <;>
    exact List.map_congr_left (fun p hp => by simp [Function.comp, hcol p hp])

/-- Witness for C2 (amended) at a concrete table with an integer column and
an all-missing column. -/
theorem c2_idempotent_without_datetime_string_witness :
    infer_and_cast
        (infer_and_cast [("n", (⟨DType.object, [some (Value.vStr "1"),
            some (Value.vStr "2")]⟩ : Column)),
          ("e", (⟨DType.object, [none]⟩ : Column))] (Rat.mk' 3 5) (Rat.mk' 4 5)).1
        (Rat.mk' 3 5) (Rat.mk' 4 5) =
      infer_and_cast [("n", (⟨DType.object, [some (Value.vStr "1"),
          some (Value.vStr "2")]⟩ : Column)),
        ("e", (⟨DType.object, [none]⟩ : Column))] (Rat.mk' 3 5) (Rat.mk' 4 5) :=
  c2_idempotent_without_datetime_string
    [("n", ⟨DType.object, [some (Value.vStr "1"), some (Value.vStr "2")]⟩),
      ("e", ⟨DType.object, [none]⟩)] (Rat.mk' 3 5) (Rat.mk' 4 5)
    (by decide) (by decide) (by decide)

end ExportConv
